import Mathlib

/-!
Verification of the Werewolf game engine (`models.py`, `role_assigner.py`,
`game_engine.py`).

The Python code is embedded shallowly:

* pydantic models become Lean structures with the same fields and defaults
  (the pydantic `timestamp` field of `ActionRecord` is display-only and is
  not modelled);
* Python `Optional[int]` becomes `Option Nat`;
* Python truthiness tests on `Optional[int]` (`if night_actions.werewolf_kill:`)
  become `truthyOpt`, which is false both for `None` and for the id `0`;
* `next(p for p in players if p.id == pid)` becomes `pyNext` (first match,
  `none` when the generator is exhausted, where Python raises StopIteration);
* `list.remove(x)` becomes `pyRemove` (removes the first occurrence, `none`
  where Python raises ValueError);
* mutation of the one player object found by `next(...)` becomes
  `updateFirst`, which rebuilds the list with the first matching element
  replaced;
* a run that raises (StopIteration / ValueError) is modelled as the whole
  operation returning `none`: the exception aborts the phase, so only the
  fact of failure and the successful runs are reasoned about;
* `random.shuffle` / `random.choice` / `random.randint` become explicit
  parameters (the shuffled list, the fallback choice, the chosen id);
* an `await`ed Actor call that may raise becomes an `Except Unit`-valued
  argument; code wrapped in `try/except` consumes the `.error` case locally,
  code without a handler propagates it.
-/

set_option autoImplicit false

/-- `RoleType` of `models.py` (a str-Enum with five distinct values). -/
inductive RoleType where
  | WEREWOLF
  | VILLAGER
  | SEER
  | WITCH
  | HUNTER
deriving DecidableEq

/-- `CampType` of `models.py`. -/
inductive CampType where
  | WEREWOLF
  | VILLAGER
deriving DecidableEq

/-- `PhaseType` of `models.py`. -/
inductive PhaseType where
  | NIGHT
  | DAY
  | VOTE
deriving DecidableEq

/-- `ActionType` of `models.py`. -/
inductive ActionType where
  | KILL
  | CHECK
  | SAVE
  | POISON
  | SHOOT
  | VOTE
deriving DecidableEq

/-- `Player` of `models.py`, with pydantic's field defaults. -/
structure Player where
  id : Nat
  name : String := ""
  role : Option RoleType := none
  alive : Bool := true
  is_ai : Bool := true
  role_revealed : Bool := false
  has_antidote : Bool := true
  has_poison : Bool := true
  used_antidote_night : Option Nat := none
  used_poison_night : Option Nat := none
deriving DecidableEq

/-- `ActionRecord` of `models.py` (without the display-only timestamp). -/
structure ActionRecord where
  action_type : ActionType
  player_id : Nat
  target_id : Option Nat := none
  phase : String
  round : Nat
deriving DecidableEq

/-- `NightActions` of `models.py`. -/
structure NightActions where
  werewolf_kill : Option Nat := none
  seer_check : Option Nat := none
  witch_save : Option Nat := none
  witch_poison : Option Nat := none
  hunter_shoot : Option Nat := none
deriving DecidableEq

/-- `GameState` of `models.py` (the `seer_results` dict as an assoc list). -/
structure GameState where
  current_round : Nat := 1
  phase : PhaseType := PhaseType.NIGHT
  alive_players : List Nat := []
  dead_players : List Nat := []
  history : List ActionRecord := []
  night_actions : Option NightActions := none
  knife_target : Option Nat := none
  seer_results : List (Nat × String) := []
  witch_saved : List Nat := []
  witch_poisoned : List Nat := []
  voted_player : Option Nat := none
  game_over : Bool := false
  winner : Option CampType := none
deriving DecidableEq

/-- Python truthiness of an `Optional[int]`: `None` and `0` are falsy. -/
def truthyOpt : Option Nat → Bool
  | none => false
  | some n => if n = 0 then false else true

/-- `next(p for p in players if p.id == pid)`: the first player with the id,
`none` where Python raises StopIteration. -/
def pyNext : List Player → Nat → Option Player
  | [], _ => none
  | p :: ps, pid => if p.id = pid then some p else pyNext ps pid

/-- `lst.remove(t)` on a list of ids: drops the first occurrence of `t`,
`none` where Python raises ValueError. -/
def pyRemove : List Nat → Nat → Option (List Nat)
  | [], _ => none
  | x :: xs, t => if x = t then some xs else (pyRemove xs t).map (x :: ·)

/-- In-place mutation of the single object returned by `next(...)`: rebuild
the list with the first player of this id replaced by `f` of it. -/
def updateFirst : List Player → Nat → (Player → Player) → List Player
  | [], _, _ => []
  | p :: ps, pid, f => if p.id = pid then f p :: ps else p :: updateFirst ps pid f

/-- `player.alive = False` on the player found by id. -/
def setAliveFalse (players : List Player) (pid : Nat) : List Player :=
  updateFirst players pid (fun p => { p with alive := false })

/-- `RoleAssigner.create_players` (`role_assigner.py` 13-33): players with the
sequential ids `0..num_players-1`; the randomly drawn human id is a
parameter (`none` in spectator mode). `is_ai` mirrors
`spectator_mode or i != human_player_id` (where `i != None` is true). -/
def create_players (num_players : Nat) (spectator_mode : Bool)
    (human_player_id : Option Nat) : List Player :=
  (List.range num_players).map (fun i =>
    { id := i
      name := "玩家" ++ toString i
      is_ai := spectator_mode || decide (some i ≠ human_player_id) })

/-- The fixed `role_distribution` dict of `RoleAssigner.assign_roles`. -/
def role_distribution : List (RoleType × Nat) :=
  [(RoleType.SEER, 1), (RoleType.WITCH, 1), (RoleType.HUNTER, 1),
   (RoleType.VILLAGER, 3), (RoleType.WEREWOLF, 3)]

/-- `role_list.extend([role] * count)` over the distribution. -/
def role_list : List RoleType :=
  role_distribution.foldl (fun acc rc => acc ++ List.replicate rc.2 rc.1) []

/-- The positional assignment loop of `assign_roles`: `role_list[i]` for the
`i`-th player, `none` where Python raises IndexError (more players than
roles). There is no count check in the source. -/
def assignRolesAux : List Player → List RoleType → Option (List Player)
  | [], _ => some []
  | _ :: _, [] => none
  | p :: ps, r :: rs =>
    match assignRolesAux ps rs with
    | none => none
    | some rest => some ({ p with role := some r } :: rest)

/-- `RoleAssigner.assign_roles` (`role_assigner.py` 36-74); `random.shuffle`
is modelled by passing the shuffled role list. -/
def assign_roles (players : List Player) (shuffled : List RoleType) :
    Option (List Player) :=
  assignRolesAux players shuffled

/-- The deaths list built by `GameEngine._resolve_night_actions`
(`game_engine.py` 274-282): the werewolf kill unless cancelled by the save
(a Python truthiness test, so target id 0 is dropped), then the witch
poison (again a truthiness test). -/
def deathsList (na : NightActions) : List Nat :=
  (if truthyOpt na.werewolf_kill = true ∧ na.werewolf_kill ≠ na.witch_save
    then [na.werewolf_kill.getD 0] else []) ++
  (if truthyOpt na.witch_poison = true then [na.witch_poison.getD 0] else [])

/-- The `ActionRecord(Kill)` appended for each night death
(`game_engine.py` 292-299). -/
def killRecord (pid round : Nat) : ActionRecord :=
  { action_type := ActionType.KILL, player_id := 0, target_id := some pid,
    phase := "夜晚", round := round }

/-- One iteration of the death loop of `_resolve_night_actions`
(`game_engine.py` 285-299): find the player, flip alive, remove from
`alive_players`, append to `dead_players`, append one kill record. -/
def applyDeath (players : List Player) (st : GameState) (pid : Nat) :
    Option (List Player × GameState) :=
  match pyNext players pid with
  | none => none
  | some _ =>
    match pyRemove st.alive_players pid with
    | none => none
    | some alive' =>
      some (setAliveFalse players pid,
        { st with alive_players := alive',
                  dead_players := st.dead_players ++ [pid],
                  history := st.history ++ [killRecord pid st.current_round] })

/-- The `for player_id in deaths` loop. -/
def applyDeaths (players : List Player) (st : GameState) :
    List Nat → Option (List Player × GameState)
  | [] => some (players, st)
  | pid :: rest =>
    match applyDeath players st pid with
    | none => none
    | some (ps', st') => applyDeaths ps' st' rest

/-- `GameEngine._resolve_night_actions` (`game_engine.py` 272-299). -/
def resolveNightActions (players : List Player) (st : GameState)
    (na : NightActions) : Option (List Player × GameState) :=
  applyDeaths players st (deathsList na)

/-- `vote_counts[target_id] = vote_counts.get(target_id, 0) + 1`: one step of
the tally dict, modelled as an assoc list in insertion order. -/
def bumpVote : List (Nat × Nat) → Nat → List (Nat × Nat)
  | [], t => [(t, 1)]
  | (k, c) :: rest, t =>
    if k = t then (k, c + 1) :: rest else (k, c) :: bumpVote rest t

/-- The tally dict built from `votes.values()` (`game_engine.py` 376-378). -/
def voteCounts (vals : List Nat) : List (Nat × Nat) :=
  vals.foldl bumpVote []

/-- `max(vote_counts.values())` (on a nonempty tally; `0` on the empty one
that the source guards against). -/
def maxVotes (vcs : List (Nat × Nat)) : Nat :=
  (vcs.map Prod.snd).foldl Nat.max 0

/-- `eliminated_players = [pid for pid, count in vote_counts.items() if count == max_votes]`. -/
def voteCandidates (vals : List Nat) : List Nat :=
  ((voteCounts vals).filter
    (fun kc => decide (kc.2 = maxVotes (voteCounts vals)))).map Prod.fst

/-- The `ActionRecord(Vote)` appended for the vote elimination
(`game_engine.py` 398-405). -/
def voteRecord (pid round : Nat) : ActionRecord :=
  { action_type := ActionType.VOTE, player_id := 0, target_id := some pid,
    phase := "投票", round := round }

/-- `GameEngine._process_hunter_shoot` (`game_engine.py` 414-457), decision
part already resolved to `target_id` (the AI and the human branch apply the
same mutations; the human branch loops until the target is a living id).
Note: no ActionRecord of any kind is appended here. -/
def processHunterShoot (players : List Player) (st : GameState)
    (target_id : Nat) : Option (List Player × GameState) :=
  match pyNext players target_id with
  | none => none
  | some _ =>
    match pyRemove st.alive_players target_id with
    | none => none
    | some alive' =>
      some (setAliveFalse players target_id,
        { st with alive_players := alive',
                  dead_players := st.dead_players ++ [target_id] })

/-- The tally-and-eliminate part of `GameEngine._process_vote_phase`
(`game_engine.py` 375-412) after the votes were collected: `vals` is
`votes.values()` in order, `hunterTarget` the target the Actor interface
returns if the hunter skill fires. -/
def processVotePhase (players : List Player) (st : GameState)
    (vals : List Nat) (hunterTarget : Nat) : Option (List Player × GameState) :=
  if voteCounts vals = [] then some (players, st)
  else
    match voteCandidates vals with
    | [e] =>
      match pyNext players e with
      | none => none
      | some p =>
        match pyRemove st.alive_players e with
        | none => none
        | some alive' =>
          let players' := setAliveFalse players e
          let st' : GameState :=
            { st with alive_players := alive',
                      dead_players := st.dead_players ++ [e],
                      voted_player := some e,
                      history := st.history ++ [voteRecord e st.current_round] }
          if p.role = some RoleType.HUNTER then
            processHunterShoot players' st' hunterTarget
          else some (players', st')
    | _ => some (players, st)

/-- `alive_werewolf_count` of `GameState.check_winner` (`models.py` 129-130). -/
def alive_werewolf_count (players : List Player) : Nat :=
  ((players.filter (fun p => p.alive)).filter
    (fun p => decide (p.role = some RoleType.WEREWOLF))).length

/-- `alive_good_count` of `GameState.check_winner` (`models.py` 137). -/
def alive_good_count (players : List Player) : Nat :=
  (players.filter (fun p => p.alive)).length - alive_werewolf_count players

/-- `GameState.check_winner` (`models.py` 124-143). `if self.winner:` is a
truthiness test on an `Optional[CampType]` whose values are nonempty
strings, hence exactly a `some` test. -/
def check_winner (st : GameState) (players : List Player) : Option CampType :=
  match st.winner with
  | some w => some w
  | none =>
    if alive_werewolf_count players = 0 then some CampType.VILLAGER
    else if alive_good_count players ≤ alive_werewolf_count players then
      some CampType.WEREWOLF
    else none

/-- The `{"save": ..., "poison": ...}` dict an Actor returns to
`_process_witch_action`. -/
structure WitchAction where
  save : Bool := false
  poison : Option Nat := none
deriving DecidableEq

/-- `witches[0]` of `[p for p in self.players if p.alive and p.role == WITCH]`. -/
def pyFindWitch : List Player → Option Player
  | [] => none
  | p :: ps =>
    if p.alive = true ∧ p.role = some RoleType.WITCH then some p
    else pyFindWitch ps

/-- `GameEngine._process_witch_action` (`game_engine.py` 228-262), AI branch.
The `await ai_player.choose_witch_action(...)` call is NOT wrapped in
`try/except`, so an Actor exception (the `Except.error` case) propagates
out of the night phase. -/
def processWitchAction (players : List Player) (st : GameState)
    (na : NightActions) (actorResp : Except Unit WitchAction) :
    Except Unit (List Player × GameState × NightActions) :=
  match pyFindWitch players with
  | none => Except.ok (players, st, na)
  | some witch =>
    let can_save := witch.has_antidote && na.werewolf_kill.isSome
    let can_poison := witch.has_poison
    match actorResp with
    | Except.error e => Except.error e
    | Except.ok wa =>
      if wa.save && can_save then
        Except.ok
          (updateFirst players witch.id (fun w =>
            { w with has_antidote := false,
                     used_antidote_night := some st.current_round }),
           { st with witch_saved := st.witch_saved ++ [na.werewolf_kill.getD 0] },
           { na with witch_save := na.werewolf_kill })
      else if truthyOpt wa.poison && can_poison then
        Except.ok
          (updateFirst players witch.id (fun w =>
            { w with has_poison := false,
                     used_poison_night := some st.current_round }),
           { st with witch_poisoned := st.witch_poisoned ++ [wa.poison.getD 0] },
           { na with witch_poison := wa.poison })
      else Except.ok (players, st, na)

/-- The shared decision shape of `_process_werewolf_action` and
`_process_seer_action` (`game_engine.py` 156-176 and 195-215): the Actor
call is wrapped in `try/except`, and both an exception and a `None` reply
fall back to `random.choice(candidates)` (the `randomFallback` parameter);
a non-`None` reply is used verbatim, with no validation. -/
def resolveActorTarget (resp : Except Unit (Option Nat))
    (randomFallback : Nat) : Nat :=
  match resp with
  | Except.error _ => randomFallback
  | Except.ok none => randomFallback
  | Except.ok (some t) => t

/-- The alive/dead bookkeeping invariant of `GameState` (§3 of the spec):
distinct player ids, duplicate-free and disjoint alive/dead id lists that
agree with the players' `alive` flags and together enumerate the player
set. -/
def StateInv (players : List Player) (st : GameState) : Prop :=
  (players.map Player.id).Nodup ∧
  st.alive_players.Nodup ∧
  st.dead_players.Nodup ∧
  (∀ i ∈ st.alive_players, i ∉ st.dead_players) ∧
  (∀ p ∈ players, (p.alive = true ↔ p.id ∈ st.alive_players) ∧
    (p.alive = false ↔ p.id ∈ st.dead_players)) ∧
  (∀ i ∈ st.alive_players, ∃ p ∈ players, p.id = i) ∧
  (∀ i ∈ st.dead_players, ∃ p ∈ players, p.id = i) ∧
  st.alive_players.length + st.dead_players.length = players.length

instance stateInvDecidable (players : List Player) (st : GameState) :
    Decidable (StateInv players st) := by
  unfold StateInv
  infer_instance

/-! ### Lemmas about the Python list-operation models -/

theorem pyRemove_sublist : ∀ {l l' : List Nat} {t : Nat},
    pyRemove l t = some l' → l'.Sublist l := by
  intro l
  induction l with
  | nil => intro l' t h; simp [pyRemove] at h
  | cons x xs ih =>
    intro l' t h
    by_cases hx : x = t
    · simp only [pyRemove, if_pos hx, Option.some.injEq] at h
      subst h
      exact List.sublist_cons_self x xs
    · simp only [pyRemove, if_neg hx, Option.map_eq_some'] at h
      obtain ⟨a, ha, rfl⟩ := h
      exact (ih ha).cons₂ x

theorem pyRemove_length : ∀ {l l' : List Nat} {t : Nat},
    pyRemove l t = some l' → l'.length + 1 = l.length := by
  intro l
  induction l with
  | nil => intro l' t h; simp [pyRemove] at h
  | cons x xs ih =>
    intro l' t h
    by_cases hx : x = t
    · simp only [pyRemove, if_pos hx, Option.some.injEq] at h
      subst h; rfl
    · simp only [pyRemove, if_neg hx, Option.map_eq_some'] at h
      obtain ⟨a, ha, rfl⟩ := h
      simp [← ih ha]

theorem pyRemove_mem : ∀ {l l' : List Nat} {t : Nat},
    pyRemove l t = some l' → t ∈ l := by
  intro l
  induction l with
  | nil => intro l' t h; simp [pyRemove] at h
  | cons x xs ih =>
    intro l' t h
    by_cases hx : x = t
    · subst hx; exact List.mem_cons_self x xs
    · simp only [pyRemove, if_neg hx, Option.map_eq_some'] at h
      obtain ⟨a, ha, rfl⟩ := h
      exact List.mem_cons_of_mem x (ih ha)

theorem pyRemove_isSome_of_mem : ∀ {l : List Nat} {t : Nat},
    t ∈ l → ∃ l', pyRemove l t = some l' := by
  intro l
  induction l with
  | nil => intro t h; simp at h
  | cons x xs ih =>
    intro t h
    by_cases hx : x = t
    · exact ⟨xs, by simp [pyRemove, hx]⟩
    · have : t ∈ xs := by
        rcases List.mem_cons.mp h with h' | h'
        · exact absurd h'.symm hx
        · exact h'
      obtain ⟨l', hl'⟩ := ih this
      exact ⟨x :: l', by simp [pyRemove, hx, hl']⟩

theorem pyRemove_eq_none : ∀ {l : List Nat} {t : Nat},
    t ∉ l → pyRemove l t = none := by
  intro l
  induction l with
  | nil => intro t _; rfl
  | cons x xs ih =>
    intro t h
    have hx : ¬ x = t := fun he => h (he ▸ List.mem_cons_self x xs)
    have hxs : t ∉ xs := fun hm => h (List.mem_cons_of_mem x hm)
    simp [pyRemove, hx, ih hxs]

theorem pyRemove_mem_iff : ∀ {l l' : List Nat} {t : Nat}, l.Nodup →
    pyRemove l t = some l' → ∀ x, x ∈ l' ↔ x ∈ l ∧ x ≠ t := by
  intro l
  induction l with
  | nil => intro l' t _ h; simp [pyRemove] at h
  | cons y xs ih =>
    intro l' t hnd h x
    have hy := List.nodup_cons.mp hnd
    by_cases hx : y = t
    · simp only [pyRemove, if_pos hx, Option.some.injEq] at h
      subst h; subst hx
      constructor
      · intro hm
        exact ⟨List.mem_cons_of_mem y hm, fun he => hy.1 (he ▸ hm)⟩
      · intro ⟨hm, hne⟩
        rcases List.mem_cons.mp hm with h' | h'
        · exact absurd h' hne
        · exact h'
    · simp only [pyRemove, if_neg hx, Option.map_eq_some'] at h
      obtain ⟨a, ha, rfl⟩ := h
      have hiff := ih hy.2 ha
      constructor
      · intro hm
        rcases List.mem_cons.mp hm with h' | h'
        · exact ⟨h' ▸ List.mem_cons_self y xs, h' ▸ hx⟩
        · have := (hiff x).mp h'
          exact ⟨List.mem_cons_of_mem y this.1, this.2⟩
      · intro ⟨hm, hne⟩
        rcases List.mem_cons.mp hm with h' | h'
        · exact h' ▸ List.mem_cons_self y a
        · exact List.mem_cons_of_mem y ((hiff x).mpr ⟨h', hne⟩)

theorem pyRemove_nodup {l l' : List Nat} {t : Nat} (hnd : l.Nodup)
    (h : pyRemove l t = some l') : l'.Nodup :=
  (pyRemove_sublist h).nodup hnd

theorem pyNext_mem : ∀ {l : List Player} {pid : Nat} {q : Player},
    pyNext l pid = some q → q ∈ l ∧ q.id = pid := by
  intro l
  induction l with
  | nil => intro pid q h; simp [pyNext] at h
  | cons p ps ih =>
    intro pid q h
    by_cases hp : p.id = pid
    · simp only [pyNext, if_pos hp, Option.some.injEq] at h
      subst h
      exact ⟨List.mem_cons_self p ps, hp⟩
    · simp only [pyNext, if_neg hp] at h
      have := ih h
      exact ⟨List.mem_cons_of_mem p this.1, this.2⟩

theorem pyNext_isSome : ∀ {l : List Player} {pid : Nat},
    (∃ p ∈ l, p.id = pid) → ∃ q, pyNext l pid = some q := by
  intro l
  induction l with
  | nil => intro pid h; simp at h
  | cons p ps ih =>
    intro pid h
    by_cases hp : p.id = pid
    · exact ⟨p, by simp [pyNext, hp]⟩
    · obtain ⟨r, hr, hrid⟩ := h
      rcases List.mem_cons.mp hr with h' | h'
      · exact absurd (h' ▸ hrid) hp
      · obtain ⟨q, hq⟩ := ih ⟨r, h', hrid⟩
        exact ⟨q, by simp [pyNext, hp, hq]⟩

theorem list_map_id_of_eq {α : Type} {l : List α} {g : α → α}
    (h : ∀ x ∈ l, g x = x) : l.map g = l := by
  induction l with
  | nil => rfl
  | cons x xs ih =>
    simp only [List.map_cons, h x (List.mem_cons_self x xs),
      ih (fun y hy => h y (List.mem_cons_of_mem x hy))]

theorem updateFirst_map_id {l : List Player} {pid : Nat} {f : Player → Player}
    (hf : ∀ p, (f p).id = p.id) :
    (updateFirst l pid f).map Player.id = l.map Player.id := by
  induction l with
  | nil => rfl
  | cons p ps ih =>
    by_cases hp : p.id = pid
    · simp [updateFirst, hp, hf]
    · simp [updateFirst, hp, ih]

theorem updateFirst_eq_map {l : List Player} {pid : Nat} {f : Player → Player}
    (hf : ∀ p, (f p).id = p.id) (hnd : (l.map Player.id).Nodup) :
    updateFirst l pid f = l.map (fun p => if p.id = pid then f p else p) := by
  induction l with
  | nil => rfl
  | cons p ps ih =>
    have hnd' := List.nodup_cons.mp hnd
    by_cases hp : p.id = pid
    · have hrest : ∀ q ∈ ps, (fun r => if r.id = pid then f r else r) q = q := by
        intro q hq
        have : q.id ≠ pid := by
          intro he
          exact hnd'.1 (hp ▸ he ▸ List.mem_map_of_mem Player.id hq)
        simp [this]
      simp [updateFirst, hp, list_map_id_of_eq hrest]
    · simp [updateFirst, hp, ih hnd'.2]

theorem pyNext_updateFirst {l : List Player} {pid : Nat} {f : Player → Player}
    (hf : ∀ p, (f p).id = p.id) :
    pyNext (updateFirst l pid f) pid = (pyNext l pid).map f := by
  induction l with
  | nil => rfl
  | cons p ps ih =>
    by_cases hp : p.id = pid
    · simp [updateFirst, pyNext, hp, hf]
    · simp [updateFirst, pyNext, hp, hf, ih]

theorem mem_updateFirst : ∀ {l : List Player} {pid : Nat} {f : Player → Player}
    {q : Player}, q ∈ updateFirst l pid f →
    q ∈ l ∨ ∃ p ∈ l, p.id = pid ∧ q = f p := by
  intro l
  induction l with
  | nil => intro pid f q h; simp [updateFirst] at h
  | cons p ps ih =>
    intro pid f q h
    by_cases hp : p.id = pid
    · simp only [updateFirst, if_pos hp] at h
      rcases List.mem_cons.mp h with h' | h'
      · exact Or.inr ⟨p, List.mem_cons_self p ps, hp, h'⟩
      · exact Or.inl (List.mem_cons_of_mem p h')
    · simp only [updateFirst, if_neg hp] at h
      rcases List.mem_cons.mp h with h' | h'
      · exact Or.inl (h' ▸ List.mem_cons_self p ps)
      · rcases ih h' with h'' | ⟨r, hr, hrid, hq⟩
        · exact Or.inl (List.mem_cons_of_mem p h'')
        · exact Or.inr ⟨r, List.mem_cons_of_mem p hr, hrid, hq⟩

/-! ### The alive/dead bookkeeping: one death preserves the invariant -/

theorem kill_preserves_inv {players : List Player} {st st' : GameState}
    {pid : Nat} {alive' : List Nat}
    (h : StateInv players st)
    (hrem : pyRemove st.alive_players pid = some alive')
    (halive : st'.alive_players = alive')
    (hdead : st'.dead_players = st.dead_players ++ [pid]) :
    StateInv (setAliveFalse players pid) st' := by
  obtain ⟨hids, hand, hdnd, hdisj, hflags, hae, hde, hlen⟩ := h
  have hpid_alive : pid ∈ st.alive_players := pyRemove_mem hrem
  have hmem_iff := pyRemove_mem_iff hand hrem
  have hnd' := pyRemove_nodup hand hrem
  have hpid_not_dead : pid ∉ st.dead_players := hdisj pid hpid_alive
  have hf : ∀ p : Player, ({ p with alive := false } : Player).id = p.id :=
    fun _ => rfl
  have hids' : (setAliveFalse players pid).map Player.id = players.map Player.id :=
    updateFirst_map_id hf
  have hmap : setAliveFalse players pid =
      players.map (fun p => if p.id = pid then { p with alive := false } else p) :=
    updateFirst_eq_map hf hids
  have hlen' : (setAliveFalse players pid).length = players.length := by
    have := congrArg List.length hids'
    simpa using this
  have hexists : ∀ i, (∃ p ∈ players, p.id = i) →
      ∃ q ∈ setAliveFalse players pid, q.id = i := by
    intro i hi
    have h1 : i ∈ players.map Player.id := List.mem_map.mpr hi
    have h2 : i ∈ (setAliveFalse players pid).map Player.id := by
      rw [hids']; exact h1
    exact List.mem_map.mp h2
  refine ⟨?_, ?_, ?_, ?_, ?_, ?_, ?_, ?_⟩
  · rw [hids']; exact hids
  · rw [halive]; exact hnd'
  · rw [hdead]
    simp only [List.nodup_append, List.nodup_singleton, true_and]
    exact ⟨hdnd, by simpa [List.disjoint_singleton] using hpid_not_dead⟩
  · intro i hi
    rw [halive] at hi
    rw [hdead]
    have := (hmem_iff i).mp hi
    simp only [List.mem_append, List.mem_singleton]
    rintro (hd | he)
    · exact hdisj i this.1 hd
    · exact this.2 he
  · intro q hq
    rw [hmap] at hq
    obtain ⟨p, hp, hqp⟩ := List.mem_map.mp hq
    by_cases hpi : p.id = pid
    · simp only [if_pos hpi] at hqp
      subst hqp
      constructor
      · rw [halive]
        constructor
        · intro hff; cases hff
        · intro hmem
          exact absurd ((hmem_iff _).mp (by simpa [hpi] using hmem)).2
            (by simp)
      · rw [hdead]
        simp [hpi]
    · simp only [if_neg hpi] at hqp
      subst hqp
      have hold := hflags p hp
      constructor
      · rw [halive]
        constructor
        · intro ht
          exact (hmem_iff p.id).mpr ⟨hold.1.mp ht, hpi⟩
        · intro hmem
          exact hold.1.mpr ((hmem_iff p.id).mp hmem).1
      · rw [hdead]
        constructor
        · intro hfa
          exact List.mem_append.mpr (Or.inl (hold.2.mp hfa))
        · intro hmem
          rcases List.mem_append.mp hmem with hd | he
          · exact hold.2.mpr hd
          · exact absurd (List.mem_singleton.mp he) hpi
  · intro i hi
    rw [halive] at hi
    exact hexists i (hae i ((hmem_iff i).mp hi).1)
  · intro i hi
    rw [hdead] at hi
    rcases List.mem_append.mp hi with hd | he
    · exact hexists i (hde i hd)
    · rw [List.mem_singleton.mp he]
      exact hexists pid (hae pid hpid_alive)
  · rw [halive, hdead]
    have hrl := pyRemove_length hrem
    simp only [List.length_append, List.length_singleton]
    omega

/-- Characterisation of a successful `applyDeath`. -/
theorem applyDeath_eq {players : List Player} {st : GameState} {pid : Nat}
    {ps' : List Player} {st' : GameState}
    (ha : applyDeath players st pid = some (ps', st')) :
    ps' = setAliveFalse players pid ∧
    ∃ alive', pyRemove st.alive_players pid = some alive' ∧
      st' = { st with alive_players := alive',
                      dead_players := st.dead_players ++ [pid],
                      history := st.history ++ [killRecord pid st.current_round] } := by
  unfold applyDeath at ha
  cases hn : pyNext players pid with
  | none => rw [hn] at ha; cases ha
  | some q =>
    rw [hn] at ha
    cases hr : pyRemove st.alive_players pid with
    | none => rw [hr] at ha; cases ha
    | some alive' =>
      rw [hr] at ha
      simp only [Option.some.injEq, Prod.mk.injEq] at ha
      exact ⟨ha.1.symm, alive', rfl, ha.2.symm⟩

theorem applyDeath_inv {players : List Player} {st : GameState} {pid : Nat}
    {ps' : List Player} {st' : GameState}
    (h : StateInv players st)
    (ha : applyDeath players st pid = some (ps', st')) : StateInv ps' st' := by
  obtain ⟨hps, alive', hrem, hst⟩ := applyDeath_eq ha
  subst hps
  subst hst
  exact kill_preserves_inv h hrem rfl rfl

theorem applyDeath_some_of {players : List Player} {st : GameState} {pid : Nat}
    (h : StateInv players st) (hmem : pid ∈ st.alive_players) :
    ∃ alive', pyRemove st.alive_players pid = some alive' ∧
      applyDeath players st pid = some (setAliveFalse players pid,
        { st with alive_players := alive',
                  dead_players := st.dead_players ++ [pid],
                  history := st.history ++ [killRecord pid st.current_round] }) := by
  obtain ⟨alive', hrem⟩ := pyRemove_isSome_of_mem hmem
  obtain ⟨q, hq⟩ := pyNext_isSome (h.2.2.2.2.2.1 pid hmem)
  exact ⟨alive', hrem, by unfold applyDeath; rw [hq, hrem]⟩

theorem applyDeath_none_of {players : List Player} {st : GameState} {pid : Nat}
    (hmem : pid ∉ st.alive_players) : applyDeath players st pid = none := by
  unfold applyDeath
  cases hn : pyNext players pid with
  | none => rfl
  | some q => rw [pyRemove_eq_none hmem]

theorem applyDeaths_inv : ∀ {ds : List Nat} {players ps' : List Player}
    {st st' : GameState}, StateInv players st →
    applyDeaths players st ds = some (ps', st') → StateInv ps' st' := by
  intro ds
  induction ds with
  | nil =>
    intro players ps' st st' h ha
    unfold applyDeaths at ha
    simp only [Option.some.injEq, Prod.mk.injEq] at ha
    rw [← ha.1, ← ha.2]
    exact h
  | cons pid rest ih =>
    intro players ps' st st' h ha
    unfold applyDeaths at ha
    rcases h1 : applyDeath players st pid with _ | ⟨ps₁, st₁⟩
    · rw [h1] at ha; cases ha
    · rw [h1] at ha
      exact ih (applyDeath_inv h h1) ha

theorem applyDeaths_dead_mono : ∀ {ds : List Nat} {players ps' : List Player}
    {st st' : GameState}, applyDeaths players st ds = some (ps', st') →
    ∀ i ∈ st.dead_players, i ∈ st'.dead_players := by
  intro ds
  induction ds with
  | nil =>
    intro players ps' st st' ha i hi
    unfold applyDeaths at ha
    simp only [Option.some.injEq, Prod.mk.injEq] at ha
    rw [← ha.2]
    exact hi
  | cons pid rest ih =>
    intro players ps' st st' ha i hi
    unfold applyDeaths at ha
    rcases h1 : applyDeath players st pid with _ | ⟨ps₁, st₁⟩
    · rw [h1] at ha; cases ha
    · rw [h1] at ha
      obtain ⟨_, alive', _, hst⟩ := applyDeath_eq h1
      refine ih ha i ?_
      rw [hst]
      exact List.mem_append.mpr (Or.inl hi)

theorem applyDeaths_effects : ∀ {ds : List Nat} {players ps' : List Player}
    {st st' : GameState}, StateInv players st →
    applyDeaths players st ds = some (ps', st') →
    st'.current_round = st.current_round ∧
    st'.history = st.history ++ ds.map (fun i => killRecord i st.current_round) ∧
    ∀ i ∈ ds, i ∈ st'.dead_players := by
  intro ds
  induction ds with
  | nil =>
    intro players ps' st st' _ ha
    unfold applyDeaths at ha
    simp only [Option.some.injEq, Prod.mk.injEq] at ha
    rw [← ha.2]
    simp
  | cons pid rest ih =>
    intro players ps' st st' h ha
    unfold applyDeaths at ha
    rcases h1 : applyDeath players st pid with _ | ⟨ps₁, st₁⟩
    · rw [h1] at ha; cases ha
    · rw [h1] at ha
      obtain ⟨hps, alive', hrem, hst⟩ := applyDeath_eq h1
      have h₁ : StateInv ps₁ st₁ := applyDeath_inv h h1
      obtain ⟨hcr, hhist, hdead⟩ := ih h₁ ha
      have hcr₁ : st₁.current_round = st.current_round := by rw [hst]
      refine ⟨by rw [hcr, hcr₁], ?_, ?_⟩
      · rw [hhist, hcr₁, hst]
        simp [List.append_assoc]
      · intro i hi
        rcases List.mem_cons.mp hi with h' | h'
        · subst h'
          refine applyDeaths_dead_mono ha i ?_
          rw [hst]
          simp
        · exact hdead i h'

theorem processHunterShoot_inv {players ps' : List Player} {st st' : GameState}
    {tg : Nat} (h : StateInv players st)
    (hp : processHunterShoot players st tg = some (ps', st')) :
    StateInv ps' st' := by
  unfold processHunterShoot at hp
  cases hn : pyNext players tg with
  | none => rw [hn] at hp; cases hp
  | some q =>
    rw [hn] at hp
    cases hr : pyRemove st.alive_players tg with
    | none => rw [hr] at hp; cases hp
    | some alive' =>
      rw [hr] at hp
      simp only [Option.some.injEq, Prod.mk.injEq] at hp
      rw [← hp.1, ← hp.2]
      exact kill_preserves_inv h hr rfl rfl

theorem processVotePhase_inv {players ps' : List Player} {st st' : GameState}
    {vals : List Nat} {tg : Nat} (h : StateInv players st)
    (hp : processVotePhase players st vals tg = some (ps', st')) :
    StateInv ps' st' := by
  unfold processVotePhase at hp
  by_cases hvc : voteCounts vals = []
  · rw [if_pos hvc] at hp
    simp only [Option.some.injEq, Prod.mk.injEq] at hp
    rw [← hp.1, ← hp.2]
    exact h
  · rw [if_neg hvc] at hp
    rcases hcs : voteCandidates vals with _ | ⟨e, _ | ⟨e2, es⟩⟩
    · rw [hcs] at hp
      simp only [Option.some.injEq, Prod.mk.injEq] at hp
      rw [← hp.1, ← hp.2]
      exact h
    · rw [hcs] at hp
      simp only [] at hp
      cases hn : pyNext players e with
      | none => rw [hn] at hp; cases hp
      | some p =>
        rw [hn] at hp
        cases hr : pyRemove st.alive_players e with
        | none => rw [hr] at hp; cases hp
        | some alive' =>
          rw [hr] at hp
          simp only at hp
          have hinv' : StateInv (setAliveFalse players e)
              { st with alive_players := alive',
                        dead_players := st.dead_players ++ [e],
                        voted_player := some e,
                        history := st.history ++ [voteRecord e st.current_round] } :=
            kill_preserves_inv h hr rfl rfl
          by_cases hrole : p.role = some RoleType.HUNTER
          · rw [if_pos hrole] at hp
            exact processHunterShoot_inv hinv' hp
          · rw [if_neg hrole] at hp
            simp only [Option.some.injEq, Prod.mk.injEq] at hp
            rw [← hp.1, ← hp.2]
            exact hinv'
    · rw [hcs] at hp
      simp only [Option.some.injEq, Prod.mk.injEq] at hp
      rw [← hp.1, ← hp.2]
      exact h

/-! ### The vote tally: the assoc-list dict agrees with per-target counts -/

/-- Lookup in the tally dict (0 when absent, like `dict.get(k, 0)`). -/
def assocGet : List (Nat × Nat) → Nat → Nat
  | [], _ => 0
  | (k, c) :: rest, t => if k = t then c else assocGet rest t

/-- The number of votes cast for `k` in the collected vote values. -/
def countVotesFor (vals : List Nat) (k : Nat) : Nat :=
  (vals.filter (fun v => decide (v = k))).length

theorem countVotesFor_cons {v k : Nat} {vs : List Nat} :
    countVotesFor (v :: vs) k =
      countVotesFor vs k + (if v = k then 1 else 0) := by
  by_cases h : v = k <;> simp [countVotesFor, List.filter_cons, h]

theorem bumpVote_get : ∀ (acc : List (Nat × Nat)) (t k : Nat),
    assocGet (bumpVote acc t) k =
      if k = t then assocGet acc k + 1 else assocGet acc k := by
  intro acc
  induction acc with
  | nil =>
    intro t k
    by_cases h : k = t
    · simp [bumpVote, assocGet, h]
    · have h' : ¬ t = k := fun he => h he.symm
      simp [bumpVote, assocGet, h, h']
  | cons kc rest ih =>
    intro t k
    obtain ⟨k', c⟩ := kc
    by_cases h1 : k' = t
    · subst h1
      by_cases h2 : k' = k
      · subst h2
        simp [bumpVote, assocGet]
      · have h2' : ¬ k = k' := fun he => h2 he.symm
        simp [bumpVote, assocGet, h2, h2']
    · by_cases h2 : k' = k
      · subst h2
        simp [bumpVote, assocGet, h1]
      · simp [bumpVote, assocGet, h1, h2, ih]

theorem bumpVote_keys : ∀ (acc : List (Nat × Nat)) (t : Nat),
    (bumpVote acc t).map Prod.fst =
      if t ∈ acc.map Prod.fst then acc.map Prod.fst
      else acc.map Prod.fst ++ [t] := by
  intro acc
  induction acc with
  | nil => intro t; simp [bumpVote]
  | cons kc rest ih =>
    intro t
    obtain ⟨k', c⟩ := kc
    by_cases h1 : k' = t
    · simp [bumpVote, h1]
    · have h1' : ¬ t = k' := fun he => h1 he.symm
      by_cases h2 : t ∈ rest.map Prod.fst
      · have hm : t ∈ ((k', c) :: rest).map Prod.fst := by
          simp [h2]
        simp [bumpVote, h1, ih, h2, hm]
      · have hm : t ∉ ((k', c) :: rest).map Prod.fst := by
          simp [h1', h2]
        simp [bumpVote, h1, ih, h2, hm]
        rw [if_neg h1']

theorem foldl_bump_get : ∀ (vals : List Nat) (acc : List (Nat × Nat)) (k : Nat),
    assocGet (vals.foldl bumpVote acc) k = assocGet acc k + countVotesFor vals k := by
  intro vals
  induction vals with
  | nil => intro acc k; simp [countVotesFor]
  | cons v vs ih =>
    intro acc k
    simp only [List.foldl_cons]
    rw [ih, bumpVote_get, countVotesFor_cons]
    by_cases h1 : k = v
    · by_cases h2 : v = k
      · rw [if_pos h1, if_pos h2]; omega
      · exact absurd h1.symm h2
    · by_cases h2 : v = k
      · exact absurd h2.symm h1
      · rw [if_neg h1, if_neg h2]; omega

theorem voteCounts_get (vals : List Nat) (k : Nat) :
    assocGet (voteCounts vals) k = countVotesFor vals k := by
  unfold voteCounts
  rw [foldl_bump_get]
  simp [assocGet]

theorem foldl_bump_keys_mem : ∀ (vals : List Nat) (acc : List (Nat × Nat)) (k : Nat),
    k ∈ (vals.foldl bumpVote acc).map Prod.fst ↔
      k ∈ acc.map Prod.fst ∨ k ∈ vals := by
  intro vals
  induction vals with
  | nil => intro acc k; simp
  | cons v vs ih =>
    intro acc k
    simp only [List.foldl_cons, List.mem_cons]
    rw [ih, bumpVote_keys]
    by_cases h : v ∈ acc.map Prod.fst
    · rw [if_pos h]
      constructor
      · rintro (ha | hv)
        · exact Or.inl ha
        · exact Or.inr (Or.inr hv)
      · rintro (ha | he | hv)
        · exact Or.inl ha
        · exact Or.inl (he ▸ h)
        · exact Or.inr hv
    · rw [if_neg h]
      simp only [List.mem_append, List.mem_singleton]
      constructor
      · rintro ((ha | he) | hv)
        · exact Or.inl ha
        · exact Or.inr (Or.inl he)
        · exact Or.inr (Or.inr hv)
      · rintro (ha | he | hv)
        · exact Or.inl (Or.inl ha)
        · exact Or.inl (Or.inr he)
        · exact Or.inr hv

theorem foldl_bump_keys_nodup : ∀ (vals : List Nat) (acc : List (Nat × Nat)),
    (acc.map Prod.fst).Nodup → ((vals.foldl bumpVote acc).map Prod.fst).Nodup := by
  intro vals
  induction vals with
  | nil => intro acc h; exact h
  | cons v vs ih =>
    intro acc h
    simp only [List.foldl_cons]
    refine ih _ ?_
    rw [bumpVote_keys]
    by_cases hv : v ∈ acc.map Prod.fst
    · rw [if_pos hv]; exact h
    · rw [if_neg hv]
      simp only [List.nodup_append, List.nodup_singleton, true_and]
      exact ⟨h, by simpa [List.disjoint_singleton] using hv⟩

theorem voteCounts_keys_nodup (vals : List Nat) :
    ((voteCounts vals).map Prod.fst).Nodup :=
  foldl_bump_keys_nodup vals [] (by simp)

theorem voteCounts_keys_mem (vals : List Nat) (k : Nat) :
    k ∈ (voteCounts vals).map Prod.fst ↔ k ∈ vals := by
  unfold voteCounts
  rw [foldl_bump_keys_mem]
  simp

theorem assocGet_of_mem : ∀ {acc : List (Nat × Nat)} {k c : Nat},
    (acc.map Prod.fst).Nodup → (k, c) ∈ acc → assocGet acc k = c := by
  intro acc
  induction acc with
  | nil => intro k c _ h; simp at h
  | cons kc rest ih =>
    intro k c hnd hm
    obtain ⟨k', c'⟩ := kc
    simp only [List.map_cons, List.nodup_cons] at hnd
    rcases List.mem_cons.mp hm with h' | h'
    · injection h' with h1 h2
      subst h1
      subst h2
      simp [assocGet]
    · have hk : ¬ k' = k := by
        intro he
        subst he
        exact hnd.1 (List.mem_map.mpr ⟨(k', c), h', rfl⟩)
      simp [assocGet, hk, ih hnd.2 h']

theorem mem_of_key : ∀ {acc : List (Nat × Nat)} {k : Nat},
    k ∈ acc.map Prod.fst → (k, assocGet acc k) ∈ acc := by
  intro acc
  induction acc with
  | nil => intro k h; simp at h
  | cons kc rest ih =>
    intro k h
    obtain ⟨k', c'⟩ := kc
    by_cases hk : k' = k
    · subst hk
      simp [assocGet]
    · have h' : k ∈ rest.map Prod.fst := by
        simp only [List.map_cons, List.mem_cons] at h
        rcases h with h1 | h1
        · exact absurd h1.symm hk
        · exact h1
      simp only [assocGet, if_neg hk]
      exact List.mem_cons_of_mem _ (ih h')

theorem foldl_max_init_le : ∀ (l : List Nat) (init : Nat),
    init ≤ l.foldl Nat.max init := by
  intro l
  induction l with
  | nil => intro init; simp
  | cons x xs ih =>
    intro init
    simp only [List.foldl_cons]
    exact le_trans (Nat.le_max_left init x) (ih _)

theorem foldl_max_le : ∀ (l : List Nat) (init a : Nat),
    a ∈ l → a ≤ l.foldl Nat.max init := by
  intro l
  induction l with
  | nil => intro init a h; simp at h
  | cons x xs ih =>
    intro init a h
    rcases List.mem_cons.mp h with h' | h'
    · subst h'
      simp only [List.foldl_cons]
      exact le_trans (Nat.le_max_right init a) (foldl_max_init_le _ _)
    · exact ih _ a h'

/-- A unique candidate at the maximum tally really is the strict argmax. -/
theorem voteCandidates_unique_count {vals : List Nat} {e : Nat}
    (hcand : voteCandidates vals = [e]) :
    ∀ t, t ∈ vals → t ≠ e → countVotesFor vals t < countVotesFor vals e := by
  intro t ht hne
  unfold voteCandidates at hcand
  rcases hfil : (voteCounts vals).filter
      (fun kc => decide (kc.2 = maxVotes (voteCounts vals))) with _ | ⟨⟨e₁, ce⟩, rest⟩
  · rw [hfil] at hcand
    cases hcand
  · rw [hfil] at hcand
    simp only [List.map_cons, List.cons.injEq] at hcand
    have hrest : rest = [] := by
      cases rest with
      | nil => rfl
      | cons a b => simp at hcand
    subst hrest
    rw [← hcand.1] at hne ⊢
    have hhead : (e₁, ce) ∈ (voteCounts vals).filter
        (fun kc => decide (kc.2 = maxVotes (voteCounts vals))) := by
      rw [hfil]
      exact List.mem_cons_self _ _
    have hmem_e : (e₁, ce) ∈ voteCounts vals := (List.mem_filter.mp hhead).1
    have hce : ce = maxVotes (voteCounts vals) := by
      have := (List.mem_filter.mp hhead).2
      simpa using this
    have hget_e : countVotesFor vals e₁ = ce := by
      rw [← voteCounts_get]
      exact assocGet_of_mem (voteCounts_keys_nodup vals) hmem_e
    have htk : t ∈ (voteCounts vals).map Prod.fst :=
      (voteCounts_keys_mem vals t).mpr ht
    have hmem_t : (t, assocGet (voteCounts vals) t) ∈ voteCounts vals := mem_of_key htk
    have hget_t : assocGet (voteCounts vals) t = countVotesFor vals t :=
      voteCounts_get vals t
    have hne_max : countVotesFor vals t ≠ maxVotes (voteCounts vals) := by
      intro heq
      have hmemf : (t, assocGet (voteCounts vals) t) ∈
          (voteCounts vals).filter
            (fun kc => decide (kc.2 = maxVotes (voteCounts vals))) := by
        refine List.mem_filter.mpr ⟨hmem_t, ?_⟩
        simp [hget_t, heq]
      rw [hfil] at hmemf
      rcases List.mem_cons.mp hmemf with h' | h'
      · exact hne (congrArg Prod.fst h')
      · simp at h'
    have hle_max : countVotesFor vals t ≤ maxVotes (voteCounts vals) := by
      rw [← hget_t]
      refine foldl_max_le _ 0 _ ?_
      exact List.mem_map.mpr ⟨(t, assocGet (voteCounts vals) t), hmem_t, rfl⟩
    rw [hget_e, hce]
    omega

theorem voteCandidates_nil_of {vals : List Nat} (h : voteCounts vals = []) :
    voteCandidates vals = [] := by
  unfold voteCandidates
  rw [h]
  rfl

/-! ### Role assignment lemmas -/

theorem assignRolesAux_isSome : ∀ (ps : List Player) (rs : List RoleType),
    (assignRolesAux ps rs).isSome = true ↔ ps.length ≤ rs.length := by
  intro ps
  induction ps with
  | nil => intro rs; simp [assignRolesAux]
  | cons p ps ih =>
    intro rs
    cases rs with
    | nil => simp [assignRolesAux]
    | cons r rs =>
      have hih := ih rs
      cases h : assignRolesAux ps rs with
      | none =>
        rw [h] at hih
        simp only [assignRolesAux, h, List.length_cons]
        simp only [Option.isSome_none, Bool.false_eq_true, false_iff] at hih
        simp only [Option.isSome_none, Bool.false_eq_true, false_iff]
        omega
      | some rest =>
        rw [h] at hih
        simp only [assignRolesAux, h, List.length_cons]
        simp only [Option.isSome_some, true_iff] at hih
        simp only [Option.isSome_some, true_iff]
        omega

theorem assignRolesAux_roles : ∀ (ps : List Player) (rs : List RoleType)
    (out : List Player), assignRolesAux ps rs = some out →
    out.map Player.role = (rs.take ps.length).map (fun r => some r) := by
  intro ps
  induction ps with
  | nil =>
    intro rs out h
    simp only [assignRolesAux, Option.some.injEq] at h
    subst h
    simp
  | cons p ps ih =>
    intro rs out h
    cases rs with
    | nil => simp [assignRolesAux] at h
    | cons r rs =>
      simp only [assignRolesAux] at h
      cases h' : assignRolesAux ps rs with
      | none => rw [h'] at h; cases h
      | some rest =>
        rw [h'] at h
        simp only [Option.some.injEq] at h
        subst h
        simp [List.take_succ_cons, ih rs rest h']

theorem assignRolesAux_length : ∀ (ps : List Player) (rs : List RoleType)
    (out : List Player), assignRolesAux ps rs = some out →
    out.length = ps.length := by
  intro ps
  induction ps with
  | nil =>
    intro rs out h
    simp only [assignRolesAux, Option.some.injEq] at h
    subst h
    rfl
  | cons p ps ih =>
    intro rs out h
    cases rs with
    | nil => simp [assignRolesAux] at h
    | cons r rs =>
      simp only [assignRolesAux] at h
      cases h' : assignRolesAux ps rs with
      | none => rw [h'] at h; cases h
      | some rest =>
        rw [h'] at h
        simp only [Option.some.injEq] at h
        subst h
        simp [ih rs rest h']

/-! ### Vote-phase evaluation lemmas -/

theorem processHunterShoot_eq {players : List Player} {st : GameState}
    {tg : Nat} {q : Player} {alive₂ : List Nat}
    (hn : pyNext players tg = some q)
    (hr : pyRemove st.alive_players tg = some alive₂) :
    processHunterShoot players st tg =
      some (setAliveFalse players tg,
        { st with alive_players := alive₂,
                  dead_players := st.dead_players ++ [tg] }) := by
  unfold processHunterShoot
  rw [hn, hr]

theorem processVotePhase_unique_eq {players : List Player} {st : GameState}
    {vals : List Nat} {tg e : Nat} {p : Player} {alive₁ : List Nat}
    (hcand : voteCandidates vals = [e])
    (hn : pyNext players e = some p)
    (hr : pyRemove st.alive_players e = some alive₁) :
    processVotePhase players st vals tg =
      (if p.role = some RoleType.HUNTER then
        processHunterShoot (setAliveFalse players e)
          { st with alive_players := alive₁,
                    dead_players := st.dead_players ++ [e],
                    voted_player := some e,
                    history := st.history ++ [voteRecord e st.current_round] } tg
      else
        some (setAliveFalse players e,
          { st with alive_players := alive₁,
                    dead_players := st.dead_players ++ [e],
                    voted_player := some e,
                    history := st.history ++ [voteRecord e st.current_round] })) := by
  have hne : ¬ voteCounts vals = [] := by
    intro h0
    rw [voteCandidates_nil_of h0] at hcand
    cases hcand
  unfold processVotePhase
  rw [if_neg hne, hcand]
  simp only []
  rw [hn, hr]

theorem processVotePhase_tie_eq {players : List Player} {st : GameState}
    {vals : List Nat} {tg : Nat}
    (hlen : 2 ≤ (voteCandidates vals).length) :
    processVotePhase players st vals tg = some (players, st) := by
  have hne : ¬ voteCounts vals = [] := by
    intro h0
    rw [voteCandidates_nil_of h0] at hlen
    simp at hlen
  unfold processVotePhase
  rw [if_neg hne]
  cases hcs : voteCandidates vals with
  | nil => rw [hcs] at hlen
  | cons a tail =>
    cases tail with
    | nil =>
      rw [hcs] at hlen
      simp at hlen
    | cons b rest => rfl

theorem pyNext_setAliveFalse {l : List Player} {pid : Nat} {q : Player}
    (h : pyNext l pid = some q) :
    pyNext (setAliveFalse l pid) pid = some { q with alive := false } := by
  have hcomm := @pyNext_updateFirst l pid
    (fun p => { p with alive := false }) (fun _ => rfl)
  rw [setAliveFalse, hcomm, h]
  rfl

/-! ### Deaths-list membership under Python truthiness -/

theorem zero_not_mem_deathsList (na : NightActions) : 0 ∉ deathsList na := by
  unfold deathsList
  intro h
  rcases List.mem_append.mp h with h' | h'
  · by_cases hc : truthyOpt na.werewolf_kill = true ∧ na.werewolf_kill ≠ na.witch_save
    · rw [if_pos hc] at h'
      obtain ⟨hc1, _⟩ := hc
      rcases hwk : na.werewolf_kill with _ | m
      · rw [hwk] at hc1; simp [truthyOpt] at hc1
      · rw [hwk] at hc1 h'
        simp only [truthyOpt] at hc1
        by_cases hm : m = 0
        · rw [if_pos hm] at hc1; cases hc1
        · simp only [Option.getD_some, List.mem_singleton] at h'
          exact hm h'.symm
    · rw [if_neg hc] at h'
      simp at h'
  · by_cases hc : truthyOpt na.witch_poison = true
    · rw [if_pos hc] at h'
      rcases hwp : na.witch_poison with _ | m
      · rw [hwp] at hc; simp [truthyOpt] at hc
      · rw [hwp] at hc h'
        simp only [truthyOpt] at hc
        by_cases hm : m = 0
        · rw [if_pos hm] at hc; cases hc
        · simp only [Option.getD_some, List.mem_singleton] at h'
          exact hm h'.symm
    · rw [if_neg hc] at h'
      simp at h'

theorem mem_deathsList_iff {na : NightActions} {k : Nat} (hk : k ≠ 0) :
    k ∈ deathsList na ↔
      (na.werewolf_kill = some k ∧ na.werewolf_kill ≠ na.witch_save) ∨
      na.witch_poison = some k := by
  unfold deathsList
  rw [List.mem_append]
  constructor
  · rintro (h' | h')
    · by_cases hc : truthyOpt na.werewolf_kill = true ∧ na.werewolf_kill ≠ na.witch_save
      · rw [if_pos hc] at h'
        rcases hwk : na.werewolf_kill with _ | m
        · rw [hwk] at hc; simp [truthyOpt] at hc
        · rw [hwk] at h'
          simp only [Option.getD_some, List.mem_singleton] at h'
          refine Or.inl ⟨congrArg some h'.symm, ?_⟩
          rw [← hwk]
          exact hc.2
      · rw [if_neg hc] at h'; simp at h'
    · by_cases hc : truthyOpt na.witch_poison = true
      · rw [if_pos hc] at h'
        rcases hwp : na.witch_poison with _ | m
        · rw [hwp] at hc; simp [truthyOpt] at hc
        · rw [hwp] at h'
          simp only [Option.getD_some, List.mem_singleton] at h'
          exact Or.inr (congrArg some h'.symm)
      · rw [if_neg hc] at h'; simp at h'
  · rintro (⟨h1, h2⟩ | h1)
    · have hc : truthyOpt na.werewolf_kill = true ∧
          na.werewolf_kill ≠ na.witch_save := by
        refine ⟨?_, h2⟩
        rw [h1]
        simp [truthyOpt, hk]
      left
      rw [if_pos hc, h1]
      simp
    · have hc : truthyOpt na.witch_poison = true := by
        rw [h1]
        simp [truthyOpt, hk]
      right
      rw [if_pos hc, h1]
      simp

theorem create_players_ids (n : Nat) (spec : Bool) (hid : Option Nat) :
    (create_players n spec hid).map Player.id = List.range n := by
  simp [create_players, List.map_map, Function.comp_def]

/-! ### Concrete game configurations used by witnesses and counterexamples -/

/-- A 3-player demo: villager, werewolf, seer. -/
def wPlayers : List Player :=
  [{ id := 0, role := some RoleType.VILLAGER },
   { id := 1, role := some RoleType.WEREWOLF },
   { id := 2, role := some RoleType.SEER }]

/-- Its fresh state, `alive_players` initialised to all ids as in
`GameEngine.initialize_game`. -/
def wState : GameState := { alive_players := [0, 1, 2] }

/-- A 3-player demo with a hunter in seat 1. -/
def hPlayers : List Player :=
  [{ id := 0, role := some RoleType.VILLAGER },
   { id := 1, role := some RoleType.HUNTER },
   { id := 2, role := some RoleType.WEREWOLF }]

def hState : GameState := { alive_players := [0, 1, 2] }

/-- A 3-player demo with a witch in seat 1. -/
def cPlayers : List Player :=
  [{ id := 0, role := some RoleType.VILLAGER },
   { id := 1, role := some RoleType.WITCH },
   { id := 2, role := some RoleType.WEREWOLF }]

def cState : GameState := { alive_players := [0, 1, 2] }

/-- The standard 9-player game as `initialize_game` builds it
(spectator mode, roles not yet assigned). -/
def nPlayers : List Player := create_players 9 true none

def nState : GameState := { alive_players := [0, 1, 2, 3, 4, 5, 6, 7, 8] }

/-- A fixed shuffle outcome putting the hunter in seat 4. -/
def dShuffle : List RoleType :=
  [RoleType.VILLAGER, RoleType.WEREWOLF, RoleType.WEREWOLF, RoleType.WEREWOLF,
   RoleType.HUNTER, RoleType.VILLAGER, RoleType.SEER, RoleType.WITCH,
   RoleType.VILLAGER]

/-- The 9 players after role assignment under `dShuffle`. -/
def dPlayers : List Player := (assign_roles nPlayers dShuffle).getD []

/-- The fresh state of the 9-player game with roles assigned. -/
def dState : GameState := { alive_players := [0, 1, 2, 3, 4, 5, 6, 7, 8] }

/-- A vote profile with a unique maximum on the hunter in seat 4. -/
def dVals : List Nat := [4, 4, 4, 4, 4, 1, 1, 2, 2]

/-! ### Claim C6 -/

/-- **C6**: for every night in which the witch save equals the werewolf kill
(both non-null) and the poison is null, night resolution kills no one: the
deaths list is empty, the whole state (players, alive/dead lists, history)
is returned unchanged, so the kill target stays alive and no kill record is
appended. Holds for every id `k`, every seer check and hunter field. -/
theorem c6_save_cancels_kill (players : List Player) (st : GameState)
    (k : Nat) (sc hs : Option Nat) :
    deathsList
      { werewolf_kill := some k, seer_check := sc, witch_save := some k,
        witch_poison := none, hunter_shoot := hs } = [] ∧
    resolveNightActions players st
      { werewolf_kill := some k, seer_check := sc, witch_save := some k,
        witch_poison := none, hunter_shoot := hs } = some (players, st) := by
  have hd : deathsList
      { werewolf_kill := some k, seer_check := sc, witch_save := some k,
        witch_poison := none, hunter_shoot := hs } = [] := by
    simp [deathsList, truthyOpt]
  refine ⟨hd, ?_⟩
  unfold resolveNightActions
  rw [hd]
  rfl

/-! ### Claim C7 -/

/-- **C7 counterexample**: the claim says a non-null poison on a living
player is always in the death set; but with the 9 fresh players (player 0
alive) and `witch_poison = 0`, the deaths list is empty and resolution
leaves the state unchanged — the poison on player 0 is silently dropped by
the truthiness test. -/
theorem c7_poison_zero_counterexample :
    (pyNext nPlayers 0).map Player.alive = some true ∧
    deathsList { witch_poison := some 0 } = [] ∧
    resolveNightActions nPlayers nState { witch_poison := some 0 } =
      some (nPlayers, nState) := by
  refine ⟨by decide, by decide, by decide⟩

/-- **C7** (amended): a non-null poison with a NONZERO target id is in the
death set regardless of the werewolf kill and save; a poison naming id 0 is
dropped (see the counterexample). Scenario B (kill 5, no save, poison 2)
yields the deaths exactly {5, 2}. -/
theorem c7_poison_included (wk ws : Option Nat) (sc hs : Option Nat)
    (k : Nat) (hk : k ≠ 0) :
    k ∈ deathsList
      { werewolf_kill := wk, seer_check := sc, witch_save := ws,
        witch_poison := some k, hunter_shoot := hs } ∧
    deathsList
      { werewolf_kill := some 5, seer_check := none, witch_save := none,
        witch_poison := some 2, hunter_shoot := none } = [5, 2] := by
  constructor
  · refine (mem_deathsList_iff hk).mpr (Or.inr rfl)
  · decide

/-- Witness for C7: instantiated at poison target 2. -/
theorem c7_poison_included_witness :
    (2 : Nat) ≠ 0 ∧
    2 ∈ deathsList
      { werewolf_kill := some 5, seer_check := none, witch_save := none,
        witch_poison := some 2, hunter_shoot := none } := by
  have h := c7_poison_included (some 5) none none none 2 (by decide)
  exact ⟨by decide, h.1⟩

/-! ### Claim C10 -/

/-- **C10**: player ids are sequential from 0, yet night resolution tests
`werewolf_kill` and `witch_poison` by Python truthiness: id 0 is never in
the deaths list, while a positive id `k` is in it exactly when the claim's
conditions hold (killed and not saved, or poisoned). -/
theorem c10_truthiness_drops_player_zero (n : Nat) (spec : Bool)
    (hid : Option Nat) (na : NightActions) (k : Nat) (hk : 0 < k) :
    (create_players n spec hid).map Player.id = List.range n ∧
    0 ∉ deathsList na ∧
    (k ∈ deathsList na ↔
      (na.werewolf_kill = some k ∧ na.werewolf_kill ≠ na.witch_save) ∨
      na.witch_poison = some k) := by
  refine ⟨create_players_ids n spec hid, zero_not_mem_deathsList na, ?_⟩
  exact mem_deathsList_iff (by omega)

/-- Witness for C10: the 9-player game, killing player 3. -/
theorem c10_truthiness_witness :
    (0 : Nat) < 3 ∧
    nPlayers.map Player.id = List.range 9 ∧
    0 ∉ deathsList { werewolf_kill := some 3 } ∧
    3 ∈ deathsList { werewolf_kill := some 3 } := by
  have h := c10_truthiness_drops_player_zero 9 true none
    { werewolf_kill := some 3 } 3 (by decide)
  exact ⟨by decide, h.1, h.2.1, (h.2.2).mpr (Or.inl ⟨rfl, by decide⟩)⟩

/-! ### Claim C2 -/

/-- **C2 counterexample**: the claim says applying a death to an
already-dead player is a no-op and that `werewolfKill = witchPoison`
produces exactly one death; but in the fresh 9-player game with kill and
poison both on the living player 5, resolution fails
(`alive_players.remove` raises ValueError on the second application,
modelled as `none`) instead of completing with one death. -/
theorem c2_dead_reapply_counterexample :
    5 ∈ nState.alive_players ∧
    (pyNext nPlayers 5).map Player.alive = some true ∧
    resolveNightActions nPlayers nState
      { werewolf_kill := some 5, seer_check := none, witch_save := none,
        witch_poison := some 5, hunter_shoot := none } = none := by
  refine ⟨by decide, by decide, by decide⟩

/-- **C2** (amended): the death loop is NOT idempotent: re-applying a death
to an id no longer in `alive_players` makes the whole resolution fail (the
Python `remove` raises), so when `werewolf_kill` and `witch_poison` name
the same living nonzero player the night resolution returns an error
rather than one death. On the runs that do succeed the original claim's
second half holds: every id in the deaths list ends with its alive flag
false, off the alive list, on the dead list, and contributes exactly one
appended kill record. -/
theorem c2_dead_reapply_fails (players : List Player) (st : GameState)
    (k : Nat) (sc hs : Option Nat) (na : NightActions)
    (ps' : List Player) (st' : GameState)
    (h : StateInv players st) (hk0 : k ≠ 0) (hka : k ∈ st.alive_players) :
    resolveNightActions players st
      { werewolf_kill := some k, seer_check := sc, witch_save := none,
        witch_poison := some k, hunter_shoot := hs } = none ∧
    (resolveNightActions players st na = some (ps', st') →
      StateInv ps' st' ∧
      st'.history = st.history ++
        (deathsList na).map (fun i => killRecord i st.current_round) ∧
      ∀ i ∈ deathsList na, i ∉ st'.alive_players ∧ i ∈ st'.dead_players ∧
        ∀ q ∈ ps', q.id = i → q.alive = false) := by
  constructor
  · have hdl : deathsList
        { werewolf_kill := some k, seer_check := sc, witch_save := none,
          witch_poison := some k, hunter_shoot := hs } = [k, k] := by
      simp [deathsList, truthyOpt, hk0]
    unfold resolveNightActions
    rw [hdl]
    obtain ⟨alive', hrem, happ⟩ := applyDeath_some_of h hka
    unfold applyDeaths
    rw [happ]
    have hnotmem : k ∉ alive' := by
      intro hm
      exact ((pyRemove_mem_iff h.2.1 hrem k).mp hm).2 rfl
    have hnone : applyDeath (setAliveFalse players k)
        { st with alive_players := alive',
                  dead_players := st.dead_players ++ [k],
                  history := st.history ++ [killRecord k st.current_round] }
        k = none := applyDeath_none_of hnotmem
    unfold applyDeaths
    rw [hnone]
  · intro hres
    have hinv' := applyDeaths_inv h hres
    have heff := applyDeaths_effects h hres
    refine ⟨hinv', heff.2.1, ?_⟩
    intro i hi
    have hdead : i ∈ st'.dead_players := heff.2.2 i hi
    obtain ⟨_, _, _, hdisj', hflags', _, _, _⟩ := hinv'
    refine ⟨fun hmem => hdisj' i hmem hdead, hdead, ?_⟩
    intro q hq hqid
    exact (hflags' q hq).2.mpr (hqid ▸ hdead)

/-- Witness for C2: the 3-player demo, killing player 1; the duplicate
kill/poison on player 1 fails, while the singleton night on the same state
succeeds with player 1 dead. -/
theorem c2_dead_reapply_witness :
    StateInv wPlayers wState ∧ (1 : Nat) ≠ 0 ∧ 1 ∈ wState.alive_players ∧
    resolveNightActions wPlayers wState
      { werewolf_kill := some 1, seer_check := none, witch_save := none,
        witch_poison := some 1, hunter_shoot := none } = none := by
  have h := c2_dead_reapply_fails wPlayers wState 1 none none {} wPlayers wState
    (by decide) (by decide) (by decide)
  exact ⟨by decide, by decide, by decide, h.1⟩

/-! ### Claim C9 -/

/-- **C9**: the alive/dead bookkeeping invariant (disjoint duplicate-free
id lists agreeing with the players' alive flags, together enumerating the
player set, with `|alive| + |dead| = total`) is preserved by every
successful night resolution, vote phase (elimination and hunter
retaliation included), and standalone hunter shot. -/
theorem c9_partition_invariant (players : List Player) (st : GameState)
    (na : NightActions) (vals : List Nat) (tg : Nat)
    (ps₁ ps₂ ps₃ : List Player) (st₁ st₂ st₃ : GameState)
    (h : StateInv players st) :
    (resolveNightActions players st na = some (ps₁, st₁) → StateInv ps₁ st₁) ∧
    (processVotePhase players st vals tg = some (ps₂, st₂) → StateInv ps₂ st₂) ∧
    (processHunterShoot players st tg = some (ps₃, st₃) → StateInv ps₃ st₃) :=
  ⟨fun h1 => applyDeaths_inv h h1,
   fun h2 => processVotePhase_inv h h2,
   fun h3 => processHunterShoot_inv h h3⟩

/-- Witness for C9: the 3-player demo; the night that kills player 1
yields a state still satisfying the invariant. -/
theorem c9_partition_invariant_witness :
    StateInv wPlayers wState ∧
    StateInv (setAliveFalse wPlayers 1)
      { alive_players := [0, 2], dead_players := [1],
        history := [killRecord 1 1] } := by
  have h := c9_partition_invariant wPlayers wState { werewolf_kill := some 1 }
    [] 0 (setAliveFalse wPlayers 1) wPlayers wPlayers
    { alive_players := [0, 2], dead_players := [1], history := [killRecord 1 1] }
    wState wState (by decide)
  exact ⟨by decide, h.1 (by decide)⟩

/-! ### Claim C8 -/

/-- **C8**: `check_winner` is a pure function of the alive-role counts:
with no stored winner it returns the villager camp when no werewolf is
alive, the werewolf camp when werewolves are alive and the alive good
count is at most the werewolf count, and nothing otherwise; once a winner
is stored in the state every evaluation returns that same winner (and,
being pure, mutates nothing). -/
theorem c8_check_winner_cases (players : List Player) (st : GameState)
    (w : CampType) :
    (st.winner = some w → check_winner st players = some w) ∧
    (st.winner = none →
      (alive_werewolf_count players = 0 →
        check_winner st players = some CampType.VILLAGER) ∧
      (0 < alive_werewolf_count players →
        alive_good_count players ≤ alive_werewolf_count players →
        check_winner st players = some CampType.WEREWOLF) ∧
      (0 < alive_werewolf_count players →
        alive_werewolf_count players < alive_good_count players →
        check_winner st players = none)) := by
  constructor
  · intro hw
    unfold check_winner
    rw [hw]
  · intro hw
    refine ⟨?_, ?_, ?_⟩
    · intro h0
      unfold check_winner
      rw [hw, if_pos h0]
    · intro hpos hle
      unfold check_winner
      rw [hw, if_neg (by omega), if_pos hle]
    · intro hpos hlt
      unfold check_winner
      rw [hw, if_neg (by omega), if_neg (by omega)]

/-- Witness for C8: a stored winner is returned unchanged, and the
3-player demo (1 werewolf, 2 good) has no winner yet. -/
theorem c8_check_winner_witness :
    check_winner { winner := some CampType.WEREWOLF } [] =
      some CampType.WEREWOLF ∧
    check_winner wState wPlayers = none := by
  have h1 := (c8_check_winner_cases ([] : List Player)
    { winner := some CampType.WEREWOLF } CampType.WEREWOLF).1 rfl
  have h2 := ((c8_check_winner_cases wPlayers wState CampType.WEREWOLF).2
    rfl).2.2 (by decide) (by decide)
  exact ⟨h1, h2⟩

/-! ### Claim C3 -/

/-- **C3 counterexample**: the claim says `assign_roles` fails with a
ConfigError whenever the distribution total (9) differs from the player
count; but with 8 players it succeeds silently — there is no count check
in the source. -/
theorem c3_no_config_error_counterexample :
    (create_players 8 true none).length ≠ role_list.length ∧
    (assign_roles (create_players 8 true none) role_list).isSome = true := by
  refine ⟨by decide, by decide⟩

/-- **C3** (amended): `assign_roles` performs no count check: for any
shuffle of the fixed 9-role distribution it succeeds exactly when there
are at most 9 players (with more it fails, but with an IndexError, and
with fewer it silently assigns a strict subset of the roles); when the
count is exactly 9, every player gets exactly one role and the assigned
role multiset equals the distribution multiset. -/
theorem c3_assign_roles_no_check (players : List Player)
    (shuffled : List RoleType) (out : List Player)
    (hperm : shuffled.Perm role_list) :
    ((assign_roles players shuffled).isSome = true ↔ players.length ≤ 9) ∧
    (players.length = 9 → assign_roles players shuffled = some out →
      out.length = 9 ∧
      (out.map Player.role).Perm (role_list.map (fun r => some r))) := by
  have hlen : shuffled.length = 9 := by
    rw [hperm.length_eq]
    decide
  constructor
  · rw [assign_roles, assignRolesAux_isSome, hlen]
  · intro h9 hout
    have hroles := assignRolesAux_roles players shuffled out hout
    have hlout := assignRolesAux_length players shuffled out hout
    rw [h9, ← hlen, List.take_length] at hroles
    refine ⟨by rw [hlout, h9], ?_⟩
    rw [hroles]
    exact hperm.map (fun r => some r)

/-- The 9 fresh players with the unshuffled role list assigned. -/
def aAssigned : List Player := (assign_roles nPlayers role_list).getD []

/-- Witness for C3: 9 players, identity shuffle. -/
theorem c3_assign_roles_witness :
    (assign_roles nPlayers role_list).isSome = true ∧
    (aAssigned.map Player.role).Perm (role_list.map (fun r => some r)) := by
  have h := c3_assign_roles_no_check nPlayers role_list aAssigned
    (List.Perm.refl role_list)
  exact ⟨h.1.mpr (by decide), (h.2 (by decide) (by decide)).2⟩

/-! ### Claim C4 -/

/-- **C4 counterexample**: the claim says every external decision request
recovers from Actor errors and invalid targets; but the witch request has
no handler — an Actor error propagates out of `_process_witch_action` —
and a werewolf-kill reply is used verbatim even when out of range (42 in a
9-player game). -/
theorem c4_actor_failure_counterexample :
    processWitchAction cPlayers cState {} (Except.error ()) =
      Except.error () ∧
    resolveActorTarget (Except.ok (some 42)) 3 = 42 ∧
    42 ∉ (create_players 9 true none).map Player.id := by
  refine ⟨rfl, rfl, by decide⟩

/-- **C4** (amended): only the werewolf-kill and seer-check requests are
wrapped in `try/except`: for them an Actor exception or a `None` reply is
replaced by the locally drawn random fallback, but a non-`None` reply is
used verbatim with no validation; the witch request has no handler, so
when a witch is present an Actor error propagates out of the phase. -/
theorem c4_actor_recovery_partial (players : List Player) (st : GameState)
    (na : NightActions) (fb t : Nat) (w : Player)
    (hw : pyFindWitch players = some w) :
    resolveActorTarget (Except.error ()) fb = fb ∧
    resolveActorTarget (Except.ok none) fb = fb ∧
    resolveActorTarget (Except.ok (some t)) fb = t ∧
    processWitchAction players st na (Except.error ()) = Except.error () := by
  refine ⟨rfl, rfl, rfl, ?_⟩
  unfold processWitchAction
  rw [hw]

/-- Witness for C4: the 3-player demo with the witch in seat 1. -/
theorem c4_actor_recovery_witness :
    pyFindWitch cPlayers = some { id := 1, role := some RoleType.WITCH } ∧
    resolveActorTarget (Except.error ()) 2 = 2 ∧
    processWitchAction cPlayers cState {} (Except.error ()) =
      Except.error () := by
  have h := c4_actor_recovery_partial cPlayers cState {} 2 0
    { id := 1, role := some RoleType.WITCH } rfl
  exact ⟨rfl, h.1, h.2.2.2⟩

/-! ### Claim C5 -/

/-- **C5**: the vote tally eliminates exactly the unique maximum-vote
target — its alive flag flips false, it moves from alive to dead, one
ActionRecord(Vote) is appended and `voted_player` is set — and every other
voted target has strictly fewer votes; with two or more tied maxima the
phase returns the state completely unchanged (a pure function, so the tie
is never broken by randomness). The non-hunter hypothesis separates the
plain elimination from the hunter retaliation chain treated in C1. -/
theorem c5_unique_max_eliminates (players : List Player) (st : GameState)
    (vals : List Nat) (htgt e : Nat) (p : Player) (alive₁ : List Nat) :
    (voteCandidates vals = [e] → pyNext players e = some p →
      p.role ≠ some RoleType.HUNTER →
      pyRemove st.alive_players e = some alive₁ →
      processVotePhase players st vals htgt =
        some (setAliveFalse players e,
          { st with alive_players := alive₁,
                    dead_players := st.dead_players ++ [e],
                    voted_player := some e,
                    history := st.history ++ [voteRecord e st.current_round] }) ∧
      pyNext (setAliveFalse players e) e = some { p with alive := false } ∧
      (∀ t ∈ vals, t ≠ e → countVotesFor vals t < countVotesFor vals e)) ∧
    (2 ≤ (voteCandidates vals).length →
      processVotePhase players st vals htgt = some (players, st)) := by
  constructor
  · intro hcand hnext hrole hrem
    refine ⟨?_, pyNext_setAliveFalse hnext, voteCandidates_unique_count hcand⟩
    rw [processVotePhase_unique_eq hcand hnext hrem, if_neg hrole]
  · intro hlen
    exact processVotePhase_tie_eq hlen

/-- Witness for C5: in the 3-player demo, votes [1, 2, 1] uniquely
eliminate the werewolf in seat 1, and the tied votes [1, 2, 1, 2] leave
the state unchanged. -/
theorem c5_unique_max_eliminates_witness :
    voteCandidates [1, 2, 1] = [1] ∧
    (processVotePhase wPlayers wState [1, 2, 1] 0).isSome = true ∧
    countVotesFor [1, 2, 1] 2 < countVotesFor [1, 2, 1] 1 ∧
    processVotePhase wPlayers wState [1, 2, 1, 2] 0 = some (wPlayers, wState) := by
  have h1 := (c5_unique_max_eliminates wPlayers wState [1, 2, 1] 0 1
    { id := 1, role := some RoleType.WEREWOLF } [0, 2]).1
    (by decide) (by decide) (by decide) (by decide)
  have h2 := (c5_unique_max_eliminates wPlayers wState [1, 2, 1, 2] 0 0
    { id := 0 } []).2 (by decide)
  refine ⟨by decide, ?_, h1.2.2 2 (by decide) (by decide), h2⟩
  rw [h1.1]
  rfl

/-! ### Claim C1 -/

/-- Kill-record count, Vote-record count, and player 7's alive flag in a
vote-phase outcome. -/
def killVoteSummary (r : List Player × GameState) : Nat × Nat × Option Bool :=
  ((r.2.history.filter (fun a => decide (a.action_type = ActionType.KILL))).length,
   (r.2.history.filter (fun a => decide (a.action_type = ActionType.VOTE))).length,
   (pyNext r.1 7).map Player.alive)

/-- **C1 counterexample**: the claim says a vote phase that eliminates a
hunter ends with TWO ActionRecord(Kill) entries; but in the 9-player game
with the hunter in seat 4 uniquely topping the vote and shooting player 7,
the resulting history holds ZERO Kill records (and one Vote record): the
elimination appends ActionRecord(Vote) and the hunter shot appends no
record at all — although player 7's alive flag does flip false. -/
theorem c1_hunter_records_counterexample :
    voteCandidates dVals = [4] ∧
    (pyNext dPlayers 4).map Player.role = some (some RoleType.HUNTER) ∧
    (processVotePhase dPlayers dState dVals 7).map killVoteSummary =
      some (0, 1, some false) := by
  have h1 : voteCandidates dVals = [4] := by decide
  have h2 : (pyNext dPlayers 4).map Player.role =
      some (some RoleType.HUNTER) := by decide
  have h3 : (processVotePhase dPlayers dState dVals 7).map killVoteSummary =
      some (0, 1, some false) := by decide
  exact ⟨h1, h2, h3⟩

/-- **C1** (amended): when the uniquely eliminated player is a Hunter, the
engine requests exactly one retaliation target and flips that target's
alive flag to false, but appends NO record for the shot: the vote phase
appends exactly one history entry, the ActionRecord(Vote) of the
elimination, and the number of ActionRecord(Kill) entries does not
change. -/
theorem c1_hunter_shot_no_record (players : List Player) (st : GameState)
    (vals : List Nat) (htgt e : Nat) (p q : Player) (alive₁ alive₂ : List Nat)
    (hcand : voteCandidates vals = [e])
    (hnext : pyNext players e = some p)
    (hrole : p.role = some RoleType.HUNTER)
    (hrem : pyRemove st.alive_players e = some alive₁)
    (hnext₂ : pyNext (setAliveFalse players e) htgt = some q)
    (hrem₂ : pyRemove alive₁ htgt = some alive₂) :
    processVotePhase players st vals htgt =
      some (setAliveFalse (setAliveFalse players e) htgt,
        { st with alive_players := alive₂,
                  dead_players := st.dead_players ++ [e] ++ [htgt],
                  voted_player := some e,
                  history := st.history ++ [voteRecord e st.current_round] }) ∧
    pyNext (setAliveFalse (setAliveFalse players e) htgt) htgt =
      some { q with alive := false } ∧
    ((st.history ++ [voteRecord e st.current_round]).filter
        (fun a => decide (a.action_type = ActionType.KILL))).length =
      (st.history.filter (fun a => decide (a.action_type = ActionType.KILL))).length := by
  refine ⟨?_, pyNext_setAliveFalse hnext₂, ?_⟩
  · rw [processVotePhase_unique_eq hcand hnext hrem, if_pos hrole,
      processHunterShoot_eq hnext₂ hrem₂]
  · simp [List.filter_append, voteRecord]

/-- Witness for C1: the 3-player demo with the hunter in seat 1, votes
[1, 1, 2], retaliation target 2. -/
theorem c1_hunter_shot_no_record_witness :
    voteCandidates [1, 1, 2] = [1] ∧
    (processVotePhase hPlayers hState [1, 1, 2] 2).isSome = true ∧
    ((hState.history ++ [voteRecord 1 hState.current_round]).filter
        (fun a => decide (a.action_type = ActionType.KILL))).length =
      (hState.history.filter
        (fun a => decide (a.action_type = ActionType.KILL))).length := by
  have h := c1_hunter_shot_no_record hPlayers hState [1, 1, 2] 2 1
    { id := 1, role := some RoleType.HUNTER }
    { id := 2, role := some RoleType.WEREWOLF } [0, 2] [0]
    (by decide) (by decide) (by decide) (by decide) (by decide) (by decide)
  refine ⟨by decide, ?_, h.2.2⟩
  rw [h.1]
  rfl
